import Mathlib

/-!
# Verification of the Uniswap data-collection toolkit against its specification

This file gives a shallow embedding, in Lean, of the Python modules of the
Uniswap-Simulator-Data-Collection repository (event decoding, explorer
pagination, gas aggregation, position-key derivation, pool-state tick reads,
and the liquidity reconstruction), together with theorems that settle the
specification's claims about them.

Conventions of the embedding:
* Python integers are `Int`/`Nat` (they are unbounded in Python as well).
* Python strings are `String`; `str[i]` indexing that can raise `IndexError`
  is modelled with `Option`, and slice arithmetic follows Python's negative
  index rules where it matters.
* Python dictionaries with dynamic string keys are association lists
  `List (String × α)`; `d[k]` access that can raise `KeyError` is an
  `Option`-returning lookup.  Dictionaries whose key set is fixed by the
  source are structures.
* A Python function that can raise models as returning `Option`/`Except`,
  with `none`/`.error` meaning an exception propagates.
* Keccak-256 (from PyCryptodome) is implemented in full, on `Nat` words.
-/

/-! ## Hex-string helpers (Python `int(s, 16)` and slicing) -/

/-- Value of one hexadecimal digit, `none` on any other character. -/
def hexDigitVal (c : Char) : Option Nat :=
  if '0' ≤ c ∧ c ≤ '9' then some (c.toNat - '0'.toNat)
  else if 'a' ≤ c ∧ c ≤ 'f' then some (c.toNat - 'a'.toNat + 10)
  else if 'A' ≤ c ∧ c ≤ 'F' then some (c.toNat - 'A'.toNat + 10)
  else none

/-- Accumulating base-16 parse of a digit list; `none` on a non-digit. -/
def hexDigitsVal : List Char → Nat → Option Nat
  | [], acc => some acc
  | c :: cs, acc =>
    match hexDigitVal c with
    | some v => hexDigitsVal cs (acc * 16 + v)
    | none => none

/-- Python `int(s, 16)`: an optional `0x`/`0X` prefix followed by at least one
hex digit; raises (`none`) otherwise.  (Sign and whitespace handling are not
exercised by the repository's inputs and are omitted.) -/
def pyIntHex (s : String) : Option Nat :=
  let cs := s.data
  let body :=
    match cs with
    | '0' :: 'x' :: rest => rest
    | '0' :: 'X' :: rest => rest
    | other => other
  if body.isEmpty then none else hexDigitsVal body 0

/-- Python `s[i]` on a string: the character, or an `IndexError` (`none`). -/
def pyStrIndex (s : String) (i : Nat) : Option Char :=
  s.data.get? i

/-- Python `s[start:]` where `start` may be negative: a negative start counts
from the end of the string and is clamped at zero. -/
def pySliceFrom (s : String) (start : Int) : String :=
  let n : Int := s.data.length
  let eff : Int := if start < 0 then max 0 (n + start) else start
  ⟨s.data.drop eff.toNat⟩

/-- Lowercase hex digits of `n`, most significant first (`Nat.toDigits 16`). -/
def natHexDigits (n : Nat) : List Char :=
  Nat.toDigits 16 n

/-- `n` printed as lowercase hex, left-padded with zeros to width `w`. -/
def hexPad (w : Nat) (n : Nat) : String :=
  let ds := natHexDigits n
  ⟨List.replicate (w - ds.length) '0' ++ ds⟩

/-- The 32-byte (64 hex character) big-endian two's-complement rendering of an
integer, as it appears (without the `0x` prefix) in an event-log topic. -/
def int256Hex (t : Int) : String :=
  hexPad 64 (t % (2 : Int) ^ 256).toNat

/-! ## `tick_hex_to_int` (src/transactions.py:129 and src/mints_burns_swaps.py:72)

The two copies of the function are textually identical; this is the embedding
of both.  The argument has already had a leading `0x` stripped by the caller
(`event["topics"][i][2:]`). -/

/-- Embedding of `tick_hex_to_int`:
if the character at index 3 is `f`, take `tick_hex[len(tick_hex)-5:]`, parse
it as hex and subtract `8388608`; otherwise parse the whole string as hex. -/
def tick_hex_to_int (tick_hex : String) : Option Int := do
  let c ← pyStrIndex tick_hex 3
  if c = 'f' then
    let significant_bits := pySliceFrom tick_hex ((tick_hex.data.length : Int) - 5)
    let tick ← pyIntHex significant_bits
    return (tick : Int) - 8388608
  else
    let tick ← pyIntHex tick_hex
    return (tick : Int)

/-! ## Keccak-256 (PyCryptodome `keccak.new(digest_bits = 256)`)

The toolkit identifies events by comparing a log's first topic against the
Keccak-256 digest of an event-signature string, and derives position keys by
hashing a packed encoding, so the hash is implemented here in full: the
Keccak-f[1600] permutation on 64-bit lanes (`Nat` words masked to 64 bits),
a 136-byte rate and the original `0x01` multi-rate padding. -/

/-- All-ones 64-bit mask. -/
def mask64 : Nat := 2 ^ 64 - 1

/-- Rotate a 64-bit word left by `n` bits (`0 < n < 64` in all uses). -/
def rotl64 (x n : Nat) : Nat :=
  ((x <<< n) ||| (x >>> (64 - n))) &&& mask64

/-- Fill the ρ-step rotation-offset table: starting from lane `(1, 0)`,
step `t` writes offset `(t+1)(t+2)/2 mod 64` into lane `(x, y)` and moves to
lane `(y, 2x+3y mod 5)`. -/
def rhoFill : Nat → Nat → Nat → Nat → List Nat → List Nat
  | 0, _, _, _, acc => acc
  | steps + 1, t, x, y, acc =>
    rhoFill steps (t + 1) y ((2 * x + 3 * y) % 5)
      (acc.set (x + 5 * y) (((t + 1) * (t + 2) / 2) % 64))

/-- ρ-step rotation offsets, for lanes in `x + 5 * y` order (lane 0 keeps
offset 0). -/
def rhoOffsets : List Nat :=
  rhoFill 24 0 1 0 (List.replicate 25 0)

/-- π-step destination of lane `i = x + 5 * y`, namely `y + 5 * ((2x+3y) % 5)`. -/
def piTarget : List Nat :=
  (List.range 25).map fun i =>
    let x := i % 5
    let y := i / 5
    y + 5 * ((2 * x + 3 * y) % 5)

/-- One step of the degree-8 LFSR (`x^8 + x^6 + x^5 + x^4 + 1`) that
generates the ι-step round constants. -/
def keccakLfsr (r : Nat) : Nat :=
  ((r <<< 1) ^^^ ((r >>> 7) * 0x71)) % 256

/-- Build `rounds` ι-step round constants from LFSR state `r`: each round
takes seven LFSR steps, and step `j` contributes bit `2^j - 1` when the
stepped state has bit 1 set. -/
def keccakRCsFrom : Nat → Nat → List Nat
  | 0, _ => []
  | rounds + 1, r =>
    let p := (List.range 7).foldl
      (fun (p : Nat × Nat) j =>
        let r2 := keccakLfsr p.2
        (if r2 &&& 2 = 0 then p.1 else p.1 ^^^ (1 <<< ((1 <<< j) - 1)), r2))
      (0, r)
    p.1 :: keccakRCsFrom rounds p.2

/-- The 24 ι-step round constants of Keccak-f[1600]. -/
def keccakRCs : List Nat :=
  keccakRCsFrom 24 1

/-- One Keccak-f[1600] round: θ, then ρ and π, then χ, then ι with `rc`. -/
def keccakRound (s : List Nat) (rc : Nat) : List Nat :=
  let col := (List.range 5).map fun x =>
    (s.getD x 0) ^^^ (s.getD (x + 5) 0) ^^^ (s.getD (x + 10) 0) ^^^
      (s.getD (x + 15) 0) ^^^ (s.getD (x + 20) 0)
  let d := (List.range 5).map fun x =>
    (col.getD ((x + 4) % 5) 0) ^^^ rotl64 (col.getD ((x + 1) % 5) 0) 1
  let s1 := (List.range 25).map fun i => (s.getD i 0) ^^^ (d.getD (i % 5) 0)
  let b := (List.range 25).foldl
    (fun acc i =>
      acc.set (piTarget.getD i 0) (rotl64 (s1.getD i 0) (rhoOffsets.getD i 0)))
    (List.replicate 25 0)
  let s2 := (List.range 25).map fun i =>
    let x := i % 5
    let y := i / 5
    (b.getD i 0) ^^^
      ((mask64 ^^^ (b.getD ((x + 1) % 5 + 5 * y) 0)) &&& (b.getD ((x + 2) % 5 + 5 * y) 0))
  match s2 with
  | s20 :: rest => (s20 ^^^ rc) :: rest
  | [] => []

/-- The full 24-round Keccak-f[1600] permutation. -/
def keccakF (s : List Nat) : List Nat :=
  keccakRCs.foldl keccakRound s

/-- Original Keccak multi-rate padding to the 136-byte rate: append `0x01`,
zeros, and a final `0x80` (merged to `0x81` when one byte of room is left). -/
def keccakPad (msg : List Nat) : List Nat :=
  let padLen := 136 - msg.length % 136
  if padLen = 1 then msg ++ [0x81]
  else msg ++ [0x01] ++ List.replicate (padLen - 2) 0 ++ [0x80]

/-- Pack a block of bytes into 64-bit lanes, little-endian within each lane. -/
def bytesToLanes (block : List Nat) : List Nat :=
  (List.range (block.length / 8)).map fun j =>
    (List.range 8).foldl (fun acc k => acc + ((block.getD (8 * j + k) 0) <<< (8 * k))) 0

/-- Absorb `n` rate-sized blocks of `bytes` into the sponge state. -/
def absorbBlocks : Nat → List Nat → List Nat → List Nat
  | 0, s, _ => s
  | n + 1, s, bytes =>
    let lanes := bytesToLanes (bytes.take 136)
    let s2 := (List.range 25).map fun i => (s.getD i 0) ^^^ (lanes.getD i 0)
    absorbBlocks n (keccakF s2) (bytes.drop 136)

/-- The first `outLen` bytes of the sponge state, little-endian per lane. -/
def stateBytes (s : List Nat) (outLen : Nat) : List Nat :=
  (List.range outLen).map fun i => ((s.getD (i / 8) 0) >>> (8 * (i % 8))) &&& 0xff

/-- Keccak-256 of a byte string: 32 digest bytes. -/
def keccak256 (msg : List Nat) : List Nat :=
  let padded := keccakPad msg
  stateBytes (absorbBlocks (padded.length / 136) (List.replicate 25 0) padded) 32

/-- Lowercase hex digit character for `n < 16`. -/
def hexCharOf (n : Nat) : Char :=
  if n < 10 then Char.ofNat (48 + n) else Char.ofNat (87 + n)

/-- Bytes rendered as a lowercase hex string (Python `hexdigest`). -/
def bytesHex (bs : List Nat) : String :=
  String.mk ((bs.map fun b2 => [hexCharOf (b2 / 16), hexCharOf (b2 % 16)]).flatten)

/-- The ASCII bytes of a string (all hashed strings here are ASCII). -/
def asciiBytes (s : String) : List Nat :=
  s.data.map Char.toNat

/-- `keccak.new(digest_bits = 256); update(s); hexdigest()` on an ASCII string. -/
def keccak256Hex (s : String) : String :=
  bytesHex (keccak256 (asciiBytes s))

/-! ## Event-signature hashes (src/transactions.py:56-112)

Each constant is the `0x`-prefixed hex Keccak-256 digest of the byte string
the source hashes.  Note the source's `collect_keccak.update` call at
src/transactions.py:110 hashes a string beginning `Flash(`. -/

/-- `mint_hash`: digest of `Mint(address,address,int24,int24,uint128,uint256,uint256)`. -/
def mint_hash : String :=
  "0x" ++ keccak256Hex "Mint(address,address,int24,int24,uint128,uint256,uint256)"

/-- `burn_hash`: digest of `Burn(address,int24,int24,uint128,uint256,uint256)`. -/
def burn_hash : String :=
  "0x" ++ keccak256Hex "Burn(address,int24,int24,uint128,uint256,uint256)"

/-- `swap_hash`: digest of `Swap(address,address,int256,int256,uint160,uint128,int24)`. -/
def swap_hash : String :=
  "0x" ++ keccak256Hex "Swap(address,address,int256,int256,uint160,uint128,int24)"

/-- `flash_hash`: digest of `Flash(address,address,uint256,uint256,uint256,uint256)`. -/
def flash_hash : String :=
  "0x" ++ keccak256Hex "Flash(address,address,uint256,uint256,uint256,uint256)"

/-- `collect_hash` (src/transactions.py:109-111): the source hashes the byte
string `Flash(address,address,int24,int24,uint128,uint128)`. -/
def collect_hash : String :=
  "0x" ++ keccak256Hex "Flash(address,address,int24,int24,uint128,uint128)"

/-! ## Address and ABI helpers (eth_utils / eth_abi as used by the decoders) -/

/-- Python `bytes.fromhex` on a digit list: pairs of hex digits, `none` on an
odd count or a non-digit character. -/
def bytesFromHexChars : List Char → Option (List Nat)
  | [] => some []
  | c1 :: c2 :: rest => do
    let hi ← hexDigitVal c1
    let lo ← hexDigitVal c2
    let bs ← bytesFromHexChars rest
    return (16 * hi + lo) :: bs
  | [_] => none

/-- Python `bytes.fromhex(s)`. -/
def pyBytesFromHex (s : String) : Option (List Nat) :=
  bytesFromHexChars s.data

/-- Big-endian value of a byte list. -/
def beWord (bs : List Nat) : Nat :=
  bs.foldl (fun acc b2 => acc * 256 + b2) 0

/-- `eth_abi.decode` word splitting for a tuple of `n` static (one-word)
types: the `i`-th decoded head is the big-endian value of bytes
`32*i .. 32*i+31`; fewer than `32*n` bytes raises `InsufficientDataBytes`
(`none`).  (The strict zero-padding validation of eth_abi is not modelled;
every input exercised here is correctly padded.) -/
def abiWords (n : Nat) (bs : List Nat) : Option (List Nat) :=
  if bs.length < 32 * n then none
  else some ((List.range n).map fun i => beWord ((bs.drop (32 * i)).take 32))

/-- eth_abi's decoding of a signed `bits`-bit integer from a 32-byte word:
two's complement of the word's low `bits` bits. -/
def abiInt (bits : Nat) (w : Nat) : Int :=
  let m := w % 2 ^ bits
  if 2 ^ (bits - 1) ≤ m then (m : Int) - 2 ^ bits else (m : Int)

/-- eth_abi's decoding of an `address` from a 32-byte word: the low 20 bytes
as a lowercase `0x`-prefixed hex string. -/
def abiAddress (w : Nat) : String :=
  "0x" ++ hexPad 40 (w % 2 ^ 160)

/-- `remove_address_padding` (src/transactions.py:115): `0x` plus the last 40
characters of the padded address. -/
def remove_address_padding (address_padded : String) : String :=
  "0x" ++ pySliceFrom address_padded ((address_padded.data.length : Int) - 40)

/-- Nibble `i` (big-endian order) of a digest byte list. -/
def digestNibble (h : List Nat) (i : Nat) : Nat :=
  if i % 2 = 0 then (h.getD (i / 2) 0) / 16 else (h.getD (i / 2) 0) % 16

/-- `eth_utils.to_checksum_address`: requires a `0x`-prefixed 40-hex-digit
address (raises, i.e. `none`, otherwise); uppercases exactly the hex letters
whose nibble in `Keccak-256(lowercase hex address)` is at least 8. -/
def to_checksum_address (value : String) : Option String :=
  let body :=
    match value.data with
    | '0' :: 'x' :: rest => some rest
    | '0' :: 'X' :: rest => some rest
    | _ => none
  match body with
  | none => none
  | some cs =>
    if cs.length = 40 ∧ cs.all (fun c => (hexDigitVal c).isSome) then
      let lower := cs.map Char.toLower
      let h := keccak256 (lower.map Char.toNat)
      some ("0x" ++ String.mk (lower.enum.map fun p =>
        if 8 ≤ digestNibble h p.1 then p.2.toUpper else p.2))
    else none

/-! ## Decoded event records (src/transactions.py:154-322)

Python returns plain dictionaries with a fixed key set per event kind; each
is rendered as a structure with those exact fields. -/

structure MintDecoded where
  sender : String
  owner : String
  tickLower : Int
  tickUpper : Int
  amount : Nat
  amount0 : Nat
  amount1 : Nat
deriving DecidableEq, Repr

structure BurnDecoded where
  owner : String
  tickLower : Int
  tickUpper : Int
  amount : Nat
  amount0 : Nat
  amount1 : Nat
deriving DecidableEq, Repr

structure SwapDecoded where
  sender : String
  recipient : String
  amount0 : Int
  amount1 : Int
  sqrtPriceX96 : Nat
  liquidity : Nat
  tick : Int
deriving DecidableEq, Repr

structure FlashDecoded where
  sender : String
  recipient : String
  amount0 : Nat
  amount1 : Nat
  paid0 : Nat
  paid1 : Nat
deriving DecidableEq, Repr

structure CollectDecoded where
  owner : String
  tickLower : Int
  tickUpper : Int
  recipient : String
  amount0 : Nat
  amount1 : Nat
deriving DecidableEq, Repr

/-- One raw log entry as returned by the Etherscan API (the fields the
decoders read; all hex strings are `0x`-prefixed). -/
structure RawLog where
  blockNumber : String
  timeStamp : String
  gasPrice : String
  gasUsed : String
  topics : List String
  data : String
deriving DecidableEq, Repr

/-- `decode_mint` (src/transactions.py:154): payload types
`["address", "uint128", "uint256", "uint256"]`, indexed topics owner and the
two ticks. -/
def decode_mint (event : RawLog) : Option MintDecoded := do
  let data_bytes ← pyBytesFromHex (pySliceFrom event.data 2)
  let method_data ← abiWords 4 data_bytes
  let t1 ← event.topics.get? 1
  let owner ← to_checksum_address (remove_address_padding t1)
  let t2 ← event.topics.get? 2
  let tick_lower ← tick_hex_to_int (pySliceFrom t2 2)
  let t3 ← event.topics.get? 3
  let tick_upper ← tick_hex_to_int (pySliceFrom t3 2)
  let sender ← to_checksum_address (remove_address_padding (abiAddress (method_data.getD 0 0)))
  let amount := method_data.getD 1 0
  let amount0 := method_data.getD 2 0
  let amount1 := method_data.getD 3 0
  return { sender := sender, owner := owner, tickLower := tick_lower,
           tickUpper := tick_upper, amount := amount, amount0 := amount0,
           amount1 := amount1 }

/-- `decode_burn` (src/transactions.py:188 and src/mints_burns_swaps.py:131,
which are identical): payload types `["uint128", "uint256", "uint256"]`.
The returned record's `amount0` field is assigned the local `amount`
(`method_data[0]`) at src/transactions.py:213, while the local `amount0`
(`method_data[1]`) is computed and never used — that assignment is copied
faithfully here. -/
def decode_burn (event : RawLog) : Option BurnDecoded := do
  let data_bytes ← pyBytesFromHex (pySliceFrom event.data 2)
  let method_data ← abiWords 3 data_bytes
  let t1 ← event.topics.get? 1
  let owner ← to_checksum_address (remove_address_padding t1)
  let t2 ← event.topics.get? 2
  let tick_lower ← tick_hex_to_int (pySliceFrom t2 2)
  let t3 ← event.topics.get? 3
  let tick_upper ← tick_hex_to_int (pySliceFrom t3 2)
  let amount := method_data.getD 0 0
  let amount0 := method_data.getD 1 0
  let amount1 := method_data.getD 2 0
  return { owner := owner, tickLower := tick_lower, tickUpper := tick_upper,
           amount := amount, amount0 := amount, amount1 := amount1 }

/-- `decode_swap` (src/transactions.py:218): payload types
`["int256", "int256", "uint160", "uint128", "int24"]`. -/
def decode_swap (event : RawLog) : Option SwapDecoded := do
  let data_bytes ← pyBytesFromHex (pySliceFrom event.data 2)
  let method_data ← abiWords 5 data_bytes
  let t1 ← event.topics.get? 1
  let sender ← to_checksum_address (remove_address_padding t1)
  let t2 ← event.topics.get? 2
  let recipient ← to_checksum_address (remove_address_padding t2)
  return { sender := sender, recipient := recipient,
           amount0 := abiInt 256 (method_data.getD 0 0),
           amount1 := abiInt 256 (method_data.getD 1 0),
           sqrtPriceX96 := method_data.getD 2 0,
           liquidity := method_data.getD 3 0,
           tick := abiInt 24 (method_data.getD 4 0) }

/-- `decode_flash` (src/transactions.py:250): payload types
`["uint256", "uint256", "uint256", "uint256"]`. -/
def decode_flash (event : RawLog) : Option FlashDecoded := do
  let data_bytes ← pyBytesFromHex (pySliceFrom event.data 2)
  let method_data ← abiWords 4 data_bytes
  let t1 ← event.topics.get? 1
  let sender ← to_checksum_address (remove_address_padding t1)
  let t2 ← event.topics.get? 2
  let recipient ← to_checksum_address (remove_address_padding t2)
  return { sender := sender, recipient := recipient,
           amount0 := method_data.getD 0 0, amount1 := method_data.getD 1 0,
           paid0 := method_data.getD 2 0, paid1 := method_data.getD 3 0 }

/-- `decode_collect` (src/transactions.py:292): payload types
`["address", "uint128", "uint128"]`; the recipient is the raw eth_abi
address (not checksummed by the source). -/
def decode_collect (event : RawLog) : Option CollectDecoded := do
  let data_bytes ← pyBytesFromHex (pySliceFrom event.data 2)
  let method_data ← abiWords 3 data_bytes
  let t1 ← event.topics.get? 1
  let owner ← to_checksum_address (remove_address_padding t1)
  let t2 ← event.topics.get? 2
  let tick_lower ← tick_hex_to_int (pySliceFrom t2 2)
  let t3 ← event.topics.get? 3
  let tick_upper ← tick_hex_to_int (pySliceFrom t3 2)
  return { owner := owner, tickLower := tick_lower, tickUpper := tick_upper,
           recipient := abiAddress (method_data.getD 0 0),
           amount0 := method_data.getD 1 0, amount1 := method_data.getD 2 0 }

/-- The kind-specific part of a decoded event (Python merges these fields
into the event dictionary; a tagged record is the typed rendering). -/
inductive MethodPayload where
  | mint (d : MintDecoded)
  | burn (d : BurnDecoded)
  | swap (d : SwapDecoded)
  | flash (d : FlashDecoded)
  | collect (d : CollectDecoded)
deriving DecidableEq, Repr

/-- A decoded event: the common fields of `decode_uniswap_event` plus the
kind-specific payload.  `gasTotal` is a Python float computed as
`gas_price * 10**(-18) * gas_used`; it is modelled as the exact rational. -/
structure DecodedTx where
  blockNo : Nat
  timestamp : Nat
  gasPrice : Nat
  gasUsed : Nat
  gasTotal : Rat
  method : String
  payload : MethodPayload
deriving DecidableEq, Repr

/-- `decode_uniswap_event` (src/transactions.py:325): convert the common hex
fields, then dispatch on topic 0 against the five signature hashes; an
unrecognized topic raises (`none`). -/
def decode_uniswap_event (event : RawLog) : Option DecodedTx := do
  let block_no ← pyIntHex event.blockNumber
  let timestamp ← pyIntHex event.timeStamp
  let gas_price ← pyIntHex event.gasPrice
  let gas_used ← pyIntHex event.gasUsed
  let gas_total : Rat := (gas_price : Rat) * ((10 : Rat) ^ 18)⁻¹ * (gas_used : Rat)
  let t0 ← event.topics.get? 0
  let mp ←
    if t0 = mint_hash then (decode_mint event).map (fun d => ("MINT", MethodPayload.mint d))
    else if t0 = burn_hash then (decode_burn event).map (fun d => ("BURN", MethodPayload.burn d))
    else if t0 = swap_hash then (decode_swap event).map (fun d => ("SWAP", MethodPayload.swap d))
    else if t0 = flash_hash then (decode_flash event).map (fun d => ("FLASH", MethodPayload.flash d))
    else if t0 = collect_hash then (decode_collect event).map (fun d => ("COLLECT", MethodPayload.collect d))
    else none
  return { blockNo := block_no, timestamp := timestamp, gasPrice := gas_price,
           gasUsed := gas_used, gasTotal := gas_total, method := mp.1,
           payload := mp.2 }

/-! ## Block-explorer client and pagination
(src/utils/etherscan_requests.py:56 and src/transactions.py:369)

The HTTP explorer is a parameter: a function from the request parameters that
vary (`address`, `fromBlock`, `toBlock`, `page`) to the parsed JSON response
(its `message` and `result` fields; a JSON-null `result` is `none`). -/

/-- A parsed explorer response: the `message` and `result` fields of the
returned JSON object. -/
structure ExplorerPage where
  message : String
  result : Option (List RawLog)
deriving DecidableEq

/-- `get_pool_logs` (src/utils/etherscan_requests.py:56): if the response's
`message` is not `"OK"` the function RAISES (modelled as `.error` with the
source's message); otherwise it returns the response's `result` field. -/
def get_pool_logs (explorer : String → Int → Int → Nat → ExplorerPage)
    (address : String) (from_block to_block : Int) (page : Nat) :
    Except String (Option (List RawLog)) :=
  let response_json := explorer address from_block to_block page
  if response_json.message ≠ "OK" then
    Except.error "Error! No logs found. Likely incorrect address."
  else
    Except.ok response_json.result

/-- The `while new_results` pagination loop of
`fetch_uniswap_transactions_in_range` (src/transactions.py:384-394): at each
page, a raised exception propagates, a `None` response stops the loop, and a
list response is appended and the page number incremented.  `fuel` bounds the
unrolling of the (unbounded) Python loop. -/
def fetchPagesLoop (explorer : String → Int → Int → Nat → ExplorerPage)
    (address : String) (from_block to_block : Int) :
    Nat → Nat → List RawLog → Except String (List RawLog)
  | 0, _, logs => Except.ok logs
  | fuel + 1, page, logs =>
    match get_pool_logs explorer address from_block to_block page with
    | Except.error e => Except.error e
    | Except.ok none => Except.ok logs
    | Except.ok (some response) =>
      fetchPagesLoop explorer address from_block to_block fuel (page + 1) (logs ++ response)

/-- Does a raw log's topic 0 match one of the five signature hashes?
(src/transactions.py:399; an empty `topics` list would raise in Python and
is not exercised). -/
def topic0Recognized (ev : RawLog) : Bool :=
  match ev.topics.get? 0 with
  | some t0 => decide (t0 ∈ [mint_hash, burn_hash, swap_hash, flash_hash, collect_hash])
  | none => false

/-- The block-range core of `fetch_uniswap_transactions_in_range`
(src/transactions.py:384-402), after the dates have been resolved to
`start_block`/`end_block`: page through the logs, filter to recognized
topics, and decode each (a decoding exception propagates). -/
def fetch_uniswap_transactions_in_range
    (explorer : String → Int → Int → Nat → ExplorerPage)
    (pool_address : String) (start_block end_block : Int) (fuel : Nat) :
    Except String (List DecodedTx) := do
  let logs ← fetchPagesLoop explorer pool_address start_block end_block fuel 1 []
  (logs.filter topic0Recognized).mapM fun ev =>
    match decode_uniswap_event ev with
    | some t => Except.ok t
    | none => Except.error "Error! Can only decode mint, burn and swap events."

/-! ## Gas estimates (src/gas_estimates.py:22) -/

/-- The fields of a decoded event that `get_mint_burn_swap_gas_estimates`
reads. -/
structure GasEvent where
  method : String
  gasUsed : Nat
deriving DecidableEq, Repr

/-- The accumulator variables of the aggregation loop
(src/gas_estimates.py:25-34): a running `gasUsed` sum and a count per kind. -/
structure GasAccum where
  mint_av : Nat
  mint_count : Nat
  burn_av : Nat
  burn_count : Nat
  swap_av : Nat
  swap_count : Nat
  flash_av : Nat
  flash_count : Nat
  collect_av : Nat
  collect_count : Nat
deriving DecidableEq, Repr

/-- One iteration of the aggregation loop (src/gas_estimates.py:36-51). -/
def gasStep (acc : GasAccum) (e : GasEvent) : GasAccum :=
  if e.method = "MINT" then
    { acc with mint_av := acc.mint_av + e.gasUsed, mint_count := acc.mint_count + 1 }
  else if e.method = "BURN" then
    { acc with burn_av := acc.burn_av + e.gasUsed, burn_count := acc.burn_count + 1 }
  else if e.method = "SWAP" then
    { acc with swap_av := acc.swap_av + e.gasUsed, swap_count := acc.swap_count + 1 }
  else if e.method = "FLASH" then
    { acc with flash_av := acc.flash_av + e.gasUsed, flash_count := acc.flash_count + 1 }
  else if e.method = "COLLECT" then
    { acc with collect_av := acc.collect_av + e.gasUsed, collect_count := acc.collect_count + 1 }
  else acc

/-- The `avs` result dictionary (src/gas_estimates.py:53-84); its key set is
fixed, so it is a structure.  Python's float division is modelled as exact
rational division. -/
structure GasAverages where
  mintAv : Rat
  burnAv : Rat
  swapAv : Rat
  flashAv : Rat
  collectAv : Rat
deriving DecidableEq, Repr

/-- `get_mint_burn_swap_gas_estimates` (src/gas_estimates.py:22): sum and
count per kind, then divide, with `-1` substituted for a kind whose count is
zero. -/
def get_mint_burn_swap_gas_estimates (decoded_events : List GasEvent) : GasAverages :=
  let a := decoded_events.foldl gasStep ⟨0, 0, 0, 0, 0, 0, 0, 0, 0, 0⟩
  { mintAv := if a.mint_count ≠ 0 then (a.mint_av : Rat) / (a.mint_count : Rat) else -1,
    burnAv := if a.burn_count ≠ 0 then (a.burn_av : Rat) / (a.burn_count : Rat) else -1,
    swapAv := if a.swap_count ≠ 0 then (a.swap_av : Rat) / (a.swap_count : Rat) else -1,
    flashAv := if a.flash_count ≠ 0 then (a.flash_av : Rat) / (a.flash_count : Rat) else -1,
    collectAv := if a.collect_count ≠ 0 then (a.collect_av : Rat) / (a.collect_count : Rat) else -1 }

/-! ## Position keys (src/relevant_positions.py:31)

`get_relevant_positions` consumes events loaded from a decoded-events report
(JSON), so its input is modelled as JSON-like values. -/

/-- A JSON-like value as loaded by `json.load`: the shapes the deriver can
meet (strings, integers, objects). -/
inductive JVal where
  | s (v : String)
  | i (v : Int)
  | d (fields : List (String × JVal))

/-- Python `obj[key]` on a JSON object: `KeyError`/`TypeError` is `none`. -/
def jGet (v : JVal) (key : String) : Option JVal :=
  match v with
  | JVal.d fields => (fields.find? (fun p => p.1 = key)).map (fun p => p.2)
  | _ => none

/-- The string content of a JSON value (`TypeError` otherwise). -/
def jStr (v : JVal) : Option String :=
  match v with
  | JVal.s x => some x
  | _ => none

/-- The integer content of a JSON value (`TypeError` otherwise). -/
def jInt (v : JVal) : Option Int :=
  match v with
  | JVal.i x => some x
  | _ => none

/-- `eth_abi.packed.encode_packed(["int24"], [v])`'s contribution: the 3-byte
big-endian two's complement of `v`; a value outside the int24 range raises. -/
def int24PackedBytes (v : Int) : Option (List Nat) :=
  if v < -(2 ^ 23) ∨ (2 ^ 23 : Int) ≤ v then none
  else
    let m := (v % (2 : Int) ^ 24).toNat
    some [m / 65536 % 256, m / 256 % 256, m % 256]

/-- `encode_packed(["address"], [a])`'s contribution: the 20 raw bytes of the
hex address (a malformed address raises). -/
def addressPackedBytes (a : String) : Option (List Nat) :=
  let body :=
    match a.data with
    | '0' :: 'x' :: rest => rest
    | '0' :: 'X' :: rest => rest
    | other => other
  if body.length = 40 then bytesFromHexChars body else none

/-- `encode_packed(["address", "int24", "int24"], [owner, tl, tu])`
(src/relevant_positions.py:44): concatenation with no padding. -/
def encode_packed (owner : String) (tl tu : Int) : Option (List Nat) := do
  let a ← addressPackedBytes owner
  let b2 ← int24PackedBytes tl
  let c ← int24PackedBytes tu
  return a ++ b2 ++ c

/-- The loop of `get_relevant_positions` (src/relevant_positions.py:35-52):
for each MINT/BURN event read `event["method_data"]["owner" / "tickLower" /
"tickUpper"]`, checksum the owner, hash the packed encoding, and add the
`0x`-prefixed digest to the set (modelled as a duplicate-free list). -/
def posLoop : List JVal → List String → Option (List String)
  | [], positions => some positions
  | event :: rest, positions => do
    let m ← jGet event "method"
    if jStr m = some "MINT" ∨ jStr m = some "BURN" then do
      let md ← jGet event "method_data"
      let ownerV ← jGet md "owner"
      let ownerS ← jStr ownerV
      let ownerChecksummed ← to_checksum_address ownerS
      let tlV ← jGet md "tickLower"
      let tl ← jInt tlV
      let tuV ← jGet md "tickUpper"
      let tu ← jInt tuV
      let position_key_encoded ← encode_packed ownerChecksummed tl tu
      let position_key_hex := "0x" ++ bytesHex (keccak256 position_key_encoded)
      let positions2 :=
        if position_key_hex ∈ positions then positions else positions ++ [position_key_hex]
      posLoop rest positions2
    else posLoop rest positions

/-- `get_relevant_positions` (src/relevant_positions.py:31). -/
def get_relevant_positions (decoded_events : List JVal) : Option (List String) :=
  posLoop decoded_events []

/-! ## Pool-state tick window (src/pool_state.py:37-174)

`get_pool_state` reads tick storage through RPC calls
`pool.functions.ticks(tick_idx).call()`; the chain is a parameter mapping a
tick index to the returned tuple.  Only the tick-window portion of the
function is relevant to the claims; Python booleans are integers, so the
tuple's `initialized` flag is an `Int` (0 or 1). -/

/-- `MIN_TICK` and `MAX_TICK` (src/pool_state.py:37-38 and
src/plot_liquidity.py:25-26). -/
def MIN_TICK : Int := -887272

def MAX_TICK : Int := 887272

/-- `DEFAULT_SURROUNDING_TICKS` (src/pool_state.py:39). -/
def DEFAULT_SURROUNDING_TICKS : Nat := 300

/-- The tuple returned by the `ticks(tickIdx)` contract call. -/
structure TickRaw where
  liquidityGross : Int
  liquidityNet : Int
  feeGrowthOutside0X128 : Int
  feeGrowthOutside1X128 : Int
  tickCumulativeOutside : Int
  secondsPerLiquidityOutsideX128 : Int
  secondsOutside : Int
  initializedFlag : Int
deriving DecidableEq, Repr

/-- The per-tick dictionary built by `get_pool_state`
(src/pool_state.py:148-158 and 162-172): note the capitalized
`LiquidityGross` / `LiquidityNet` keys. -/
def fetched_tick_dict (raw : TickRaw) : List (String × Int) :=
  [("LiquidityGross", raw.liquidityGross),
   ("LiquidityNet", raw.liquidityNet),
   ("FeeGrowthOutside0X128", raw.feeGrowthOutside0X128),
   ("FeeGrowthOutside1X128", raw.feeGrowthOutside1X128),
   ("tickCumulativeOutside", raw.tickCumulativeOutside),
   ("secondsPerLiquidityOutsideX128", raw.secondsPerLiquidityOutsideX128),
   ("secondsOutside", raw.secondsOutside),
   ("initialized", raw.initializedFlag)]

/-- One of `get_pool_state`'s tick loops (src/pool_state.py:147-159 or
161-173): `steps` iterations with the loop variable `i` starting at 1 and the
running `tick_idx` updated by `tick_idx += sign * (i * tick_spacing)` BEFORE
each read — the offsets accumulate.  Returns the tick indices read, in
order. -/
def tickReadLoop (tick_spacing sign : Int) : Nat → Int → Nat → List Int
  | 0, _, _ => []
  | steps + 1, tick_idx, i =>
    let tick_idx2 := tick_idx + sign * ((i : Int) * tick_spacing)
    tick_idx2 :: tickReadLoop tick_spacing sign steps tick_idx2 (i + 1)

/-- The tick indices `get_pool_state` reads: both loops run
`range(1, DEFAULT_SURROUNDING_TICKS)` (src/pool_state.py:147 and 161) — the
`surrounding_ticks` argument is accepted (src/pool_state.py:47) but not used
by either loop, exactly as in the source. -/
def get_pool_state_tick_reads (surrounding_ticks : Nat) (active_tick_idx tick_spacing : Int) :
    List Int :=
  tickReadLoop tick_spacing 1 (DEFAULT_SURROUNDING_TICKS - 1) active_tick_idx 1 ++
    tickReadLoop tick_spacing (-1) (DEFAULT_SURROUNDING_TICKS - 1) active_tick_idx 1

/-- The `ticks` mapping of the pool-state report: each read index is keyed to
the dictionary built from the chain's tuple for it
(src/pool_state.py:145-174). -/
def get_pool_state_ticks (chain : Int → TickRaw) (surrounding_ticks : Nat)
    (active_tick_idx tick_spacing : Int) : List (Int × List (String × Int)) :=
  (get_pool_state_tick_reads surrounding_ticks active_tick_idx tick_spacing).map
    fun idx => (idx, fetched_tick_dict (chain idx))

/-- The spec's wording of step 6 of `fetchState` (§4.6), for comparison:
read `activeTick + i×tickSpacing` for `i = 1 .. surroundingTicks−1`, and
symmetrically below. -/
def spec_tick_reads (surrounding_ticks : Nat) (active_tick_idx tick_spacing : Int) :
    List Int :=
  ((List.range' 1 (surrounding_ticks - 1)).map
      fun i => active_tick_idx + (i : Int) * tick_spacing) ++
    ((List.range' 1 (surrounding_ticks - 1)).map
      fun i => active_tick_idx - (i : Int) * tick_spacing)

/-! ## Liquidity reconstruction (src/plot_liquidity.py:29-151)

`get_liquidity_per_tick` consumes the report's tick mapping: tick index to a
per-tick dictionary (string keys).  The mapping is a function to `Option`
(`none` = index not present); the per-tick dictionaries keep their string
keys because the reconstruction's `["liquidityGross"]` / `["liquidityNet"]`
accesses can raise `KeyError`. -/

/-- Lookup in a per-tick dictionary (`KeyError` is `none`). -/
def dictGet (d : List (String × Int)) (key : String) : Option Int :=
  (d.find? (fun p => p.1 = key)).map (fun p => p.2)

/-- A processed tick as built by `compute_surrounding_ticks`
(src/plot_liquidity.py:56-61 and 97-102): its dictionaries have this fixed
key set. -/
structure PTick where
  liquidity_active : Int
  tick_idx : Int
  liquidity_net : Int
  liquidity_gross : Int
deriving DecidableEq, Repr

/-- The body of one iteration of `compute_surrounding_ticks`
(src/plot_liquidity.py:97-127), once `current_tick_idx` has been stepped and
bounds-checked.  `lastInit` is the Python local `current_initialized_tick`:
assigned only when an initialized tick is met (src/plot_liquidity.py:108), it
keeps its previous value otherwise, and reading it before any assignment
raises `UnboundLocalError` (`none`).  Returns the new processed tick and the
new `current_initialized_tick`. -/
def stepTick (ticks : Int → Option (List (String × Int))) (direction : String)
    (prev : PTick) (lastInit : Option (List (String × Int))) (next_idx : Int) :
    Option (PTick × Option (List (String × Int))) :=
  match ticks next_idx with
  | some d => do
    let g ← dictGet d "liquidityGross"
    let n ← dictGet d "liquidityNet"
    let cur0 : PTick :=
      { liquidity_active := prev.liquidity_active, tick_idx := next_idx,
        liquidity_net := n, liquidity_gross := g }
    if direction = "ASC" then
      -- ascending and initialized: apply the current tick's net immediately
      return ({ cur0 with liquidity_active := prev.liquidity_active + n }, some d)
    else if prev.liquidity_net ≠ 0 then
      -- descending: the source subtracts current_initialized_tick["liquidityNet"],
      -- which here is the tick just found
      return ({ cur0 with liquidity_active := prev.liquidity_active - n }, some d)
    else
      return (cur0, some d)
  | none =>
    let cur0 : PTick :=
      { liquidity_active := prev.liquidity_active, tick_idx := next_idx,
        liquidity_net := 0, liquidity_gross := 0 }
    if direction = "ASC" then
      return (cur0, lastInit)
    else if prev.liquidity_net ≠ 0 then
      -- descending at an uninitialized tick: current_initialized_tick still
      -- refers to the last initialized tick met earlier in this walk
      match lastInit with
      | some d2 => do
        let n2 ← dictGet d2 "liquidityNet"
        return ({ cur0 with liquidity_active := prev.liquidity_active - n2 }, lastInit)
      | none => none
    else
      return (cur0, lastInit)

/-- The iteration of `compute_surrounding_ticks`
(src/plot_liquidity.py:86-127): step the index by `tick_spacing` in the
walk's direction (an unknown direction raises), stop before a tick outside
`[MIN_TICK, MAX_TICK]`, otherwise process the tick and continue.  `fuel` is
the `range(num_surrounding_ticks)` iteration count. -/
def surroundingLoop (ticks : Int → Option (List (String × Int)))
    (tick_spacing : Int) (direction : String) :
    Nat → Int → PTick → Option (List (String × Int)) → Option (List PTick)
  | 0, _, _, _ => some []
  | fuel + 1, current_tick_idx, prev, lastInit => do
    let next_idx ←
      if direction = "ASC" then some (current_tick_idx + tick_spacing)
      else if direction = "DSC" then some (current_tick_idx - tick_spacing)
      else none
    if next_idx < MIN_TICK ∨ MAX_TICK < next_idx then
      return []
    else do
      let (cur, lastInit2) ← stepTick ticks direction prev lastInit next_idx
      let rest ← surroundingLoop ticks tick_spacing direction fuel next_idx cur lastInit2
      return cur :: rest

/-- `compute_surrounding_ticks` (src/plot_liquidity.py:78-129): the active
processed tick followed by the walk away from it
(`num_surrounding_ticks = 300` iterations, src/plot_liquidity.py:71). -/
def compute_surrounding_ticks (ticks : Int → Option (List (String × Int)))
    (active_tick_processed : PTick) (tick_spacing : Int) (direction : String) :
    Option (List PTick) := do
  let rest ← surroundingLoop ticks tick_spacing direction 300
    active_tick_processed.tick_idx active_tick_processed none
  return active_tick_processed :: rest

/-- The result of `get_liquidity_per_tick` (src/plot_liquidity.py:145-151):
the processed sequence plus the echoed tick spacing and active tick. -/
structure LiqResult where
  ticks_processed : List PTick
  tick_spacing : Int
  active_tick_idx : Int
deriving DecidableEq, Repr

/-- The active (nearest initializable) tick computation shared by
src/plot_liquidity.py:47-52 and src/pool_state.py:121-127:
`math.floor(current_tick / tick_spacing) * tick_spacing` (modelled as exact
flooring division) clamped into `[MIN_TICK, MAX_TICK]`. -/
def active_tick_of (current_tick_idx tick_spacing : Int) : Int :=
  let raw_active := Int.fdiv current_tick_idx tick_spacing * tick_spacing
  if raw_active < MIN_TICK then MIN_TICK
  else if MAX_TICK < raw_active then MAX_TICK
  else raw_active

/-- `get_liquidity_per_tick`, continued: seed the active tick with the
pool's current liquidity — copying `["liquidityGross"]`/`["liquidityNet"]`
when the active tick is present in the mapping — walk ascending and
descending, and return `previous_ticks + subsequent_ticks` (the descending
walk followed by the ascending walk, src/plot_liquidity.py:143). -/
def get_liquidity_per_tick (initialized_ticks : Int → Option (List (String × Int)))
    (current_tick tick_spacing liquidity : Int) : Option LiqResult := do
  let active_tick_idx := active_tick_of current_tick tick_spacing
  let seed0 : PTick :=
    { liquidity_active := liquidity, tick_idx := active_tick_idx,
      liquidity_net := 0, liquidity_gross := 0 }
  let active_tick_processed ←
    match initialized_ticks active_tick_idx with
    | some d => do
      let g ← dictGet d "liquidityGross"
      let n ← dictGet d "liquidityNet"
      pure { seed0 with liquidity_gross := g, liquidity_net := n }
    | none => pure seed0
  let subsequent_ticks ←
    compute_surrounding_ticks initialized_ticks active_tick_processed tick_spacing "ASC"
  let previous_ticks ←
    compute_surrounding_ticks initialized_ticks active_tick_processed tick_spacing "DSC"
  return { ticks_processed := previous_ticks ++ subsequent_ticks,
           tick_spacing := tick_spacing, active_tick_idx := active_tick_idx }

/-! ## Statement vocabulary and concrete test inputs -/

/-- The `gasUsed` total of the events of method `m` (the exact numerator of
the arithmetic mean). -/
def kindGasSum (m : String) (events : List GasEvent) : Nat :=
  ((events.filter fun e => e.method = m).map GasEvent.gasUsed).sum

/-- The number of events of method `m`. -/
def kindCount (m : String) (events : List GasEvent) : Nat :=
  (events.filter fun e => e.method = m).length

/-- Python dictionary lookup on an insertion-ordered association list: the
most recent write wins (`none` = `KeyError`). -/
def pyDictLookup (l : List (Int × List (String × Int))) (k : Int) :
    Option (List (String × Int)) :=
  ((l.filter fun p => p.1 = k).map fun p => p.2).getLast?

/-- A mock explorer for the pagination scenario: two non-empty pages followed
by pages that report no records (Etherscan answers `message = "No records
found"`, not `"OK"`, for an empty page). -/
def logP1 : RawLog :=
  { blockNumber := "0x10", timeStamp := "0x11", gasPrice := "0x12",
    gasUsed := "0x13", topics := ["0xaaa1"], data := "0x" }

def logP2 : RawLog :=
  { blockNumber := "0x20", timeStamp := "0x21", gasPrice := "0x22",
    gasUsed := "0x23", topics := ["0xaaa2"], data := "0x" }

def mockExplorer : String → Int → Int → Nat → ExplorerPage := fun _ _ _ page =>
  if page = 1 then { message := "OK", result := some [logP1] }
  else if page = 2 then { message := "OK", result := some [logP2] }
  else { message := "No records found", result := some [] }

/-- A flat decoded MINT event, exactly as `decode_uniswap_event` merges it
(`event.update(method_data)`, src/transactions.py:364) and as the report file
stores it: `owner`/`tickLower`/`tickUpper` at top level, no `method_data`
key. -/
def flatMintA : JVal := JVal.d
  [("blockNo", JVal.i 100), ("method", JVal.s "MINT"),
   ("owner", JVal.s "0x1234567890abcdef1234567890abcdef12345678"),
   ("tickLower", JVal.i (-100)), ("tickUpper", JVal.i 100),
   ("amount", JVal.i 11), ("amount0", JVal.i 12), ("amount1", JVal.i 13)]

/-- A second flat MINT event on the same `(owner, tickLower, tickUpper)` with
different amounts. -/
def flatMintB : JVal := JVal.d
  [("blockNo", JVal.i 200), ("method", JVal.s "MINT"),
   ("owner", JVal.s "0x1234567890abcdef1234567890abcdef12345678"),
   ("tickLower", JVal.i (-100)), ("tickUpper", JVal.i 100),
   ("amount", JVal.i 21), ("amount0", JVal.i 22), ("amount1", JVal.i 23)]

/-- The same MINT event in the nested shape `get_relevant_positions` actually
dereferences (`event["method_data"]["owner"]`, src/relevant_positions.py:45). -/
def nestedMintA : JVal := JVal.d
  [("blockNo", JVal.i 100), ("method", JVal.s "MINT"),
   ("method_data", JVal.d
     [("owner", JVal.s "0x1234567890abcdef1234567890abcdef12345678"),
      ("tickLower", JVal.i (-100)), ("tickUpper", JVal.i 100)])]

/-- A burn log whose three payload words are 1 (`amount`), 2 (`amount0`) and
3 (`amount1`). -/
def burnEv : RawLog :=
  { blockNumber := "0x10", timeStamp := "0x20", gasPrice := "0x30", gasUsed := "0x40",
    topics := ["0x0c396cd989a39f4459b5fa1aed6a9a8dcdbc45908acfd67e028cd568da98982c",
               "0x0000000000000000000000001234567890abcdef1234567890abcdef12345678",
               "0xffffffffffffffffffffffffffffffffffffffffffffffffffffffffffffff9c",
               "0x0000000000000000000000000000000000000000000000000000000000000064"],
    data := "0x000000000000000000000000000000000000000000000000000000000000000100000000000000000000000000000000000000000000000000000000000000020000000000000000000000000000000000000000000000000000000000000003" }

/-- Two initialized ticks below the active tick 0 (spacing 300000): net
liquidity 50 one step below and 70 two steps below. -/
def ticksC6 : Int → Option (List (String × Int)) := fun i =>
  if i = -300000 then some [("liquidityGross", 50), ("liquidityNet", 50)]
  else if i = -600000 then some [("liquidityGross", 70), ("liquidityNet", 70)]
  else none

/-- A chain on which every tick read returns the same tuple. -/
def chainW : Int → TickRaw := fun _ =>
  { liquidityGross := 5, liquidityNet := 3, feeGrowthOutside0X128 := 0,
    feeGrowthOutside1X128 := 0, tickCumulativeOutside := 0,
    secondsPerLiquidityOutsideX128 := 0, secondsOutside := 0,
    initializedFlag := 1 }

/-- The `ticks` mapping of the pool-state report fetched from `chainW` with
`surrounding_ticks = 5`, active tick 0 and tick spacing 300000. -/
def ticksW : Int → Option (List (String × Int)) := fun i =>
  pyDictLookup (get_pool_state_ticks chainW 5 0 300000) i

/-- The value of `get_liquidity_per_tick` on the empty tick mapping with
current tick 0, spacing 300000 and liquidity 5 (used to instantiate the
amended reconstruction-order theorem). -/
def liqResultW : LiqResult :=
  { ticks_processed :=
      [⟨5, 0, 0, 0⟩, ⟨5, -300000, 0, 0⟩, ⟨5, -600000, 0, 0⟩,
       ⟨5, 0, 0, 0⟩, ⟨5, 300000, 0, 0⟩, ⟨5, 600000, 0, 0⟩],
    tick_spacing := 300000, active_tick_idx := 0 }

/-! # Theorems settling the claims -/

set_option maxRecDepth 8192 in
/-- C1: the spec's round-trip `tickHexToInt (tickIntToHex t) = t` FAILS on the
code at `t = -1`: the 32-byte two's-complement encoding of `-1` (sixty-four
`f` characters) decodes to `-7340033`, not `-1`, because `tick_hex_to_int`
keeps only the last five hex characters (20 bits) of the encoding and then
subtracts `2^23`.  (Positive ticks, and by numeric accident the boundary
`-8388608`, do round-trip, but every other negative tick decodes wrongly.) -/
theorem tick_hex_to_int_breaks_roundtrip_at_neg_one :
    tick_hex_to_int (int256Hex (-1)) = some (-7340033) ∧
      tick_hex_to_int (int256Hex (-1)) ≠ some (-1) := by
  decide

set_option maxRecDepth 20000 in
/-- C2: the topic-0 match value the code uses for COLLECT events is NOT the
Keccak-256 hash of `Collect(address,address,int24,int24,uint128,uint128)`:
src/transactions.py:110 hashes the string
`Flash(address,address,int24,int24,uint128,uint128)` instead, and the two
digests differ (so genuine Collect logs, whose topic 0 is the digest of the
`Collect(...)` signature, can never match `collect_hash`). -/
theorem collect_hash_is_not_collect_signature_hash :
    collect_hash =
        "0x0b3894259ef2a081513229212141b84c48d956292b40dc9e7048dad0c0545a23" ∧
      "0x" ++ keccak256Hex "Collect(address,address,int24,int24,uint128,uint128)" =
        "0x70935338e69775456a85ddef226c395fb668b63fa0115f5f20610b388e6ca9c0" ∧
      collect_hash ≠
        "0x" ++ keccak256Hex "Collect(address,address,int24,int24,uint128,uint128)" := by
  refine ⟨by decide, by decide, fun h => ?_⟩
  have h1 : collect_hash =
      "0x0b3894259ef2a081513229212141b84c48d956292b40dc9e7048dad0c0545a23" := by
    decide
  have h2 : "0x" ++ keccak256Hex "Collect(address,address,int24,int24,uint128,uint128)" =
      "0x70935338e69775456a85ddef226c395fb668b63fa0115f5f20610b388e6ca9c0" := by
    decide
  rw [h1, h2] at h
  exact absurd h (by decide)

set_option maxRecDepth 8192 in
/-- C3: the claim FAILS on the code.  `get_pool_logs` never returns an
empty/absent result: a page with no further entries makes Etherscan answer a
non-`"OK"` message, on which the function raises
(src/utils/etherscan_requests.py:83-84), and the caller's `response == None`
check (src/transactions.py:390) is therefore unreachable.  On a mock
explorer with two non-empty pages followed by an empty third page, the
fetch propagates the exception instead of returning the two pages' logs. -/
theorem pagination_raises_on_exhausted_page :
    fetch_uniswap_transactions_in_range mockExplorer "0xpool" 100 200 10 =
      Except.error "Error! No logs found. Likely incorrect address." := by
  rfl

set_option maxRecDepth 100000 in
/-- C4: the claim FAILS on the code.  On flat decoded events (the shape
`decode_uniswap_event` produces and the report stores), the deriver's
`event["method_data"]` access raises a `KeyError` (`none`), so two identical
flat MINT events yield an error, not one key; the derivation only succeeds
on a nested `method_data` object, where it does produce the Keccak-256 of
the packed `(owner, tickLower, tickUpper)` encoding. -/
theorem relevant_positions_keyerror_on_flat_events :
    get_relevant_positions [flatMintA, flatMintB] = none ∧
      get_relevant_positions [nestedMintA] =
        some ["0x57e444a735e01e572e6efcb7f608919cdb6e809280fb6dbfd171da53af043640"] := by
  constructor
  · decide
  · decide

set_option maxRecDepth 8192 in
/-- C5: the claim FAILS on the code.  With `surrounding_ticks = 2`, active
tick 0 and tick spacing 1, `get_pool_state` reads 299 ticks above (and 299
below) at the cumulative offsets 1, 3, 6, 10, … (`tick_idx += i*tick_spacing`
accumulates, src/pool_state.py:149), instead of the claimed single tick at
offset 1 on each side: both loops run `range(1, DEFAULT_SURROUNDING_TICKS)`
(src/pool_state.py:147,161), ignoring the caller's `surrounding_ticks`. -/
theorem pool_state_tick_reads_diverge_from_spec :
    (get_pool_state_tick_reads 2 0 1).take 5 = [1, 3, 6, 10, 15] ∧
      (get_pool_state_tick_reads 2 0 1).length = 598 ∧
      spec_tick_reads 2 0 1 = [1, -1] ∧
      get_pool_state_tick_reads 2 0 1 ≠ spec_tick_reads 2 0 1 := by
  refine ⟨by decide, by decide, by decide, ?_⟩
  intro h
  have h1 : (get_pool_state_tick_reads 2 0 1).length = 598 := by decide
  have h2 : (spec_tick_reads 2 0 1).length = 2 := by decide
  rw [h] at h1
  rw [h2] at h1
  exact absurd h1 (by decide)

set_option maxRecDepth 8192 in
/-- C6: the claim FAILS on the code.  In the descending walk with initialized
ticks one step below the active tick (`liquidityNet = 50`) and two steps
below (`liquidityNet = 70`), the processed tick two steps below gets
`liquidityActive = 1000 - 70 = 930`: the source subtracts
`current_initialized_tick["liquidityNet"]` — the net liquidity of the tick
just reached — rather than the previous tick's `50`
(src/plot_liquidity.py:124), which would give `950` as the claim states. -/
theorem descending_walk_subtracts_current_net :
    (get_liquidity_per_tick ticksC6 0 300000 1000).map
        (fun r => r.ticks_processed.map fun t => (t.tick_idx, t.liquidity_active)) =
      some [(0, 1000), (-300000, 1000), (-600000, 930),
            (0, 1000), (300000, 1000), (600000, 1000)] ∧
      (930 : Int) ≠ 1000 - 50 := by
  decide

set_option maxRecDepth 8192 in
/-- C7: counterexample to the claim as stated.  With no initialized ticks,
active tick 0, spacing 300000 and liquidity 5, the output's tick indices are
`[0, -300000, -600000, 0, 300000, 600000]`: the descending walk is NOT
reversed, the seed appears twice (once per walk), and the sequence is not
ordered by tick index — while the claim predicts the ordered, seed-once
sequence `[-600000, -300000, 0, 300000, 600000]`. -/
theorem liquidity_concat_counterexample :
    (get_liquidity_per_tick (fun _ => none) 0 300000 5).map
        (fun r => r.ticks_processed.map PTick.tick_idx) =
      some [0, -300000, -600000, 0, 300000, 600000] ∧
      ([0, -300000, -600000, 0, 300000, 600000] : List Int) ≠
        [-600000, -300000, 0, 300000, 600000] ∧
      ([0, -300000, -600000, 0, 300000, 600000] : List Int).count 0 = 2 ∧
      ¬ List.Chain' (· < ·) ([0, -300000, -600000, 0, 300000, 600000] : List Int) := by
  refine ⟨by decide, by decide, by decide, ?_⟩
  intro h
  have := List.chain'_iff_pairwise.mp h
  have h0 : (0 : Int) < -300000 := by
    have := List.pairwise_cons.mp this
    exact this.1 (-300000) (by decide)
  exact absurd h0 (by decide)

set_option maxRecDepth 100000 in
/-- C8: the claim FAILS on the code.  For a burn log whose payload words are
`amount = 1`, `amount0 = 2`, `amount1 = 3`, the decoded record carries
`amount0 = 1`: src/transactions.py:213 (and src/mints_burns_swaps.py:156)
writes `"amount0": amount`, the first payload value, while the genuine
second payload value `2` (computed into the unused local `amount0` at
src/transactions.py:205) is dropped. -/
theorem decode_burn_amount0_is_first_payload_word :
    decode_burn burnEv = some
      { owner := "0x1234567890AbcdEF1234567890aBcdef12345678",
        tickLower := -7340132, tickUpper := 100,
        amount := 1, amount0 := 1, amount1 := 3 } ∧
      abiWords 3 ((pyBytesFromHex (pySliceFrom burnEv.data 2)).getD []) =
        some [1, 2, 3] ∧
      (1 : Nat) ≠ 2 := by
  refine ⟨by decide, by decide, by decide⟩

/-- One aggregation step adds the event's `gasUsed` to exactly the matching
kind's sum and increments exactly that kind's count. -/
theorem gasStep_eq (acc : GasAccum) (e : GasEvent) :
    gasStep acc e =
      { mint_av := acc.mint_av + (if e.method = "MINT" then e.gasUsed else 0),
        mint_count := acc.mint_count + (if e.method = "MINT" then 1 else 0),
        burn_av := acc.burn_av + (if e.method = "BURN" then e.gasUsed else 0),
        burn_count := acc.burn_count + (if e.method = "BURN" then 1 else 0),
        swap_av := acc.swap_av + (if e.method = "SWAP" then e.gasUsed else 0),
        swap_count := acc.swap_count + (if e.method = "SWAP" then 1 else 0),
        flash_av := acc.flash_av + (if e.method = "FLASH" then e.gasUsed else 0),
        flash_count := acc.flash_count + (if e.method = "FLASH" then 1 else 0),
        collect_av := acc.collect_av + (if e.method = "COLLECT" then e.gasUsed else 0),
        collect_count := acc.collect_count + (if e.method = "COLLECT" then 1 else 0) } := by
  unfold gasStep
  split_ifs with h1 h2 h3 h4 h5 <;> simp_all

/-- Cons rule for the per-kind `gasUsed` total. -/
theorem kindGasSum_cons (m : String) (e : GasEvent) (es : List GasEvent) :
    kindGasSum m (e :: es) = (if e.method = m then e.gasUsed else 0) + kindGasSum m es := by
  simp only [kindGasSum, List.filter_cons]
  split_ifs with h <;> simp_all

/-- Cons rule for the per-kind event count. -/
theorem kindCount_cons (m : String) (e : GasEvent) (es : List GasEvent) :
    kindCount m (e :: es) = (if e.method = m then 1 else 0) + kindCount m es := by
  simp only [kindCount, List.filter_cons]
  split_ifs with h <;> simp_all [Nat.add_comm]

/-- The aggregation loop computes exactly the per-kind `gasUsed` totals and
counts (on top of whatever the accumulator already holds). -/
theorem foldl_gasStep_eq (events : List GasEvent) (acc : GasAccum) :
    events.foldl gasStep acc =
      { mint_av := acc.mint_av + kindGasSum "MINT" events,
        mint_count := acc.mint_count + kindCount "MINT" events,
        burn_av := acc.burn_av + kindGasSum "BURN" events,
        burn_count := acc.burn_count + kindCount "BURN" events,
        swap_av := acc.swap_av + kindGasSum "SWAP" events,
        swap_count := acc.swap_count + kindCount "SWAP" events,
        flash_av := acc.flash_av + kindGasSum "FLASH" events,
        flash_count := acc.flash_count + kindCount "FLASH" events,
        collect_av := acc.collect_av + kindGasSum "COLLECT" events,
        collect_count := acc.collect_count + kindCount "COLLECT" events } := by
  induction events generalizing acc with
  | nil => simp [kindGasSum, kindCount]
  | cons e es ih =>
    rw [List.foldl_cons, ih, gasStep_eq]
    simp only [kindGasSum_cons, kindCount_cons]
    simp [Nat.add_assoc]



/-- C9: CONFIRMED.  For every sequence of decoded events, the aggregator
reports, for each of the five kinds, the arithmetic mean of `gasUsed` over
the events of that kind when the kind occurs, and the sentinel `-1` when it
does not; in particular the empty sequence yields `-1` for all five kinds
and no division by zero is ever attempted (the division is guarded by the
count's zero test, src/gas_estimates.py:54-82).  Python's float division is
modelled as exact rational division. -/
theorem gas_estimates_mean_or_sentinel (events : List GasEvent) :
    ((get_mint_burn_swap_gas_estimates events).mintAv =
        (if kindCount "MINT" events = 0 then -1
         else (kindGasSum "MINT" events : Rat) / (kindCount "MINT" events : Rat))) ∧
      ((get_mint_burn_swap_gas_estimates events).burnAv =
        (if kindCount "BURN" events = 0 then -1
         else (kindGasSum "BURN" events : Rat) / (kindCount "BURN" events : Rat))) ∧
      ((get_mint_burn_swap_gas_estimates events).swapAv =
        (if kindCount "SWAP" events = 0 then -1
         else (kindGasSum "SWAP" events : Rat) / (kindCount "SWAP" events : Rat))) ∧
      ((get_mint_burn_swap_gas_estimates events).flashAv =
        (if kindCount "FLASH" events = 0 then -1
         else (kindGasSum "FLASH" events : Rat) / (kindCount "FLASH" events : Rat))) ∧
      ((get_mint_burn_swap_gas_estimates events).collectAv =
        (if kindCount "COLLECT" events = 0 then -1
         else (kindGasSum "COLLECT" events : Rat) / (kindCount "COLLECT" events : Rat))) ∧
      get_mint_burn_swap_gas_estimates [] =
        { mintAv := -1, burnAv := -1, swapAv := -1, flashAv := -1, collectAv := -1 } := by
  refine ⟨?_, ?_, ?_, ?_, ?_, by decide⟩ <;>
    · unfold get_mint_burn_swap_gas_estimates
      rw [foldl_gasStep_eq]
      simp only [Nat.zero_add]
      split_ifs with h1 h2 <;> simp_all

/-- A successfully processed walk tick carries the index it was built for. -/
theorem stepTick_tick_idx (ticks : Int → Option (List (String × Int)))
    (direction : String) (prev : PTick) (lastInit : Option (List (String × Int)))
    (next_idx : Int) (cur : PTick) (li2 : Option (List (String × Int)))
    (h : stepTick ticks direction prev lastInit next_idx = some (cur, li2)) :
    cur.tick_idx = next_idx := by
  cases hd : ticks next_idx with
  | some d =>
    cases hg : dictGet d "liquidityGross" with
    | none => simp [stepTick, hd, hg] at h
    | some g =>
      cases hn : dictGet d "liquidityNet" with
      | none => simp [stepTick, hd, hg, hn] at h
      | some n =>
        simp only [stepTick, hd, hg, hn, Option.some_bind] at h
        split_ifs at h <;>
          (simp at h
           rw [← h.1])
  | none =>
    cases hli : lastInit with
    | some d2 =>
      cases hn2 : dictGet d2 "liquidityNet" with
      | none =>
        simp only [stepTick, hd, hli, hn2, Option.none_bind] at h
        split_ifs at h <;>
          first
          | (simp at h
             rw [← h.1])
          | cases h
          | simp at h
      | some n2 =>
        simp only [stepTick, hd, hli, hn2, Option.some_bind] at h
        split_ifs at h <;>
          (simp at h
           rw [← h.1])
    | none =>
      simp only [stepTick, hd, hli] at h
      split_ifs at h <;>
        first
        | (simp only [pure, Option.some.injEq, Prod.mk.injEq] at h
           rw [← h.1])
        | cases h

/-- A successful ascending walk produces strictly increasing tick indices,
starting one spacing above the walk's origin. -/
theorem surroundingLoop_asc_chain (ticks : Int → Option (List (String × Int)))
    (ts : Int) (hts : 0 < ts) :
    ∀ (fuel : Nat) (cur : Int) (prev : PTick) (li : Option (List (String × Int)))
      (l : List PTick),
      surroundingLoop ticks ts "ASC" fuel cur prev li = some l →
      List.Chain' (fun a b => a.tick_idx < b.tick_idx) l ∧
      ∀ p, l.head? = some p → p.tick_idx = cur + ts := by
  intro fuel
  induction fuel with
  | zero =>
    intro cur prev li l h
    simp only [surroundingLoop, Option.some.injEq] at h
    subst h
    exact ⟨List.chain'_nil, fun p hp => by cases hp⟩
  | succ fuel ih =>
    intro cur prev li l h
    simp only [surroundingLoop, String.reduceEq, reduceIte, Option.bind_eq_bind,
      Option.pure_def, Option.some_bind] at h
    by_cases hb : cur + ts < MIN_TICK ∨ MAX_TICK < cur + ts
    · rw [if_pos hb] at h
      simp only [Option.some.injEq] at h
      subst h
      exact ⟨List.chain'_nil, fun p hp => by cases hp⟩
    · rw [if_neg hb] at h
      cases hst : stepTick ticks "ASC" prev li (cur + ts) with
      | none => rw [hst] at h; cases h
      | some pr =>
        obtain ⟨c, li2⟩ := pr
        rw [hst] at h
        simp only [Option.bind_eq_bind, Option.some_bind] at h
        cases hrest : surroundingLoop ticks ts "ASC" fuel (cur + ts) c li2 with
        | none => rw [hrest] at h; cases h
        | some rest =>
          rw [hrest] at h
          simp only [Option.bind_eq_bind, Option.pure_def, Option.some_bind,
            Option.some.injEq] at h
          subst h
          obtain ⟨hchain, hhead⟩ := ih (cur + ts) c li2 rest hrest
          have hc : c.tick_idx = cur + ts := stepTick_tick_idx _ _ _ _ _ _ _ hst
          refine ⟨List.chain'_cons'.mpr ⟨?_, hchain⟩, ?_⟩
          · intro y hy
            have := hhead y hy
            rw [this, hc]
            omega
          · intro p hp
            simp only [List.head?_cons, Option.some.injEq] at hp
            rw [← hp, hc]

/-- A successful descending walk produces strictly decreasing tick indices,
starting one spacing below the walk's origin. -/
theorem surroundingLoop_dsc_chain (ticks : Int → Option (List (String × Int)))
    (ts : Int) (hts : 0 < ts) :
    ∀ (fuel : Nat) (cur : Int) (prev : PTick) (li : Option (List (String × Int)))
      (l : List PTick),
      surroundingLoop ticks ts "DSC" fuel cur prev li = some l →
      List.Chain' (fun a b => b.tick_idx < a.tick_idx) l ∧
      ∀ p, l.head? = some p → p.tick_idx = cur - ts := by
  intro fuel
  induction fuel with
  | zero =>
    intro cur prev li l h
    simp only [surroundingLoop, Option.some.injEq] at h
    subst h
    exact ⟨List.chain'_nil, fun p hp => by cases hp⟩
  | succ fuel ih =>
    intro cur prev li l h
    simp only [surroundingLoop, String.reduceEq, reduceIte, Option.bind_eq_bind,
      Option.pure_def, Option.some_bind] at h
    by_cases hb : cur - ts < MIN_TICK ∨ MAX_TICK < cur - ts
    · rw [if_pos hb] at h
      simp only [Option.some.injEq] at h
      subst h
      exact ⟨List.chain'_nil, fun p hp => by cases hp⟩
    · rw [if_neg hb] at h
      cases hst : stepTick ticks "DSC" prev li (cur - ts) with
      | none => rw [hst] at h; cases h
      | some pr =>
        obtain ⟨c, li2⟩ := pr
        rw [hst] at h
        simp only [Option.bind_eq_bind, Option.some_bind] at h
        cases hrest : surroundingLoop ticks ts "DSC" fuel (cur - ts) c li2 with
        | none => rw [hrest] at h; cases h
        | some rest =>
          rw [hrest] at h
          simp only [Option.bind_eq_bind, Option.pure_def, Option.some_bind,
            Option.some.injEq] at h
          subst h
          obtain ⟨hchain, hhead⟩ := ih (cur - ts) c li2 rest hrest
          have hc : c.tick_idx = cur - ts := stepTick_tick_idx _ _ _ _ _ _ _ hst
          refine ⟨List.chain'_cons'.mpr ⟨?_, hchain⟩, ?_⟩
          · intro y hy
            have := hhead y hy
            rw [this, hc]
            omega
          · intro p hp
            simp only [List.head?_cons, Option.some.injEq] at hp
            rw [← hp, hc]

/-- A successful `compute_surrounding_ticks` is the seed followed by its
walk. -/
theorem compute_surrounding_ticks_eq (ticks : Int → Option (List (String × Int)))
    (seed : PTick) (ts : Int) (direction : String) (l : List PTick)
    (h : compute_surrounding_ticks ticks seed ts direction = some l) :
    ∃ rest, l = seed :: rest ∧
      surroundingLoop ticks ts direction 300 seed.tick_idx seed none = some rest := by
  simp only [compute_surrounding_ticks, Option.bind_eq_bind, Option.pure_def] at h
  cases hr : surroundingLoop ticks ts direction 300 seed.tick_idx seed none with
  | none => rw [hr] at h; cases h
  | some rest =>
    rw [hr] at h
    simp only [Option.some_bind, Option.some.injEq] at h
    exact ⟨rest, h.symm, rfl⟩

/-- Successful ascending and descending walks both start with the seed and
are strictly monotone in tick index, each in its own direction. -/
theorem liquidity_walks_assemble (ticks : Int → Option (List (String × Int)))
    (ts : Int) (hts : 0 < ts) (seed : PTick) (la lb : List PTick)
    (hsub : compute_surrounding_ticks ticks seed ts "ASC" = some la)
    (hprev : compute_surrounding_ticks ticks seed ts "DSC" = some lb) :
    ∃ dsc asc, lb = seed :: dsc ∧ la = seed :: asc ∧
      List.Chain' (fun a b => b.tick_idx < a.tick_idx) lb ∧
      List.Chain' (fun a b => a.tick_idx < b.tick_idx) la := by
  obtain ⟨ascRest, hla, hloopA⟩ := compute_surrounding_ticks_eq _ _ _ _ _ hsub
  obtain ⟨dscRest, hlb, hloopD⟩ := compute_surrounding_ticks_eq _ _ _ _ _ hprev
  obtain ⟨hchA, hheadA⟩ :=
    surroundingLoop_asc_chain ticks ts hts 300 seed.tick_idx seed none ascRest hloopA
  obtain ⟨hchD, hheadD⟩ :=
    surroundingLoop_dsc_chain ticks ts hts 300 seed.tick_idx seed none dscRest hloopD
  subst hla hlb
  refine ⟨dscRest, ascRest, rfl, rfl, ?_, ?_⟩
  · exact List.chain'_cons'.mpr ⟨fun y hy => by rw [hheadD y hy]; omega, hchD⟩
  · exact List.chain'_cons'.mpr ⟨fun y hy => by rw [hheadA y hy]; omega, hchA⟩

set_option maxRecDepth 2048 in
/-- C7 (amended): whenever `get_liquidity_per_tick` returns a result, the
returned sequence is the descending walk — in the descending order it was
produced, NOT reversed — concatenated with the ascending walk, and the seed
ProcessedTick at the active tick index appears exactly twice, once at the
head of each walk: the first half is strictly decreasing and the second
strictly increasing in tick index, so the output as a whole is neither
ordered by tick index nor free of duplicates. -/
theorem liquidity_concat_amended (ticks : Int → Option (List (String × Int)))
    (ct ts L : Int) (hts : 0 < ts) (r : LiqResult)
    (hr : get_liquidity_per_tick ticks ct ts L = some r) :
    ∃ seed dsc asc,
      r.ticks_processed = (seed :: dsc) ++ (seed :: asc) ∧
      seed.tick_idx = r.active_tick_idx ∧
      List.Chain' (fun a b => b.tick_idx < a.tick_idx) (seed :: dsc) ∧
      List.Chain' (fun a b => a.tick_idx < b.tick_idx) (seed :: asc) := by
  simp only [get_liquidity_per_tick, Option.bind_eq_bind, Option.pure_def] at hr
  cases hA : ticks (active_tick_of ct ts) with
  | some d =>
    rw [hA] at hr
    cases hg : dictGet d "liquidityGross" with
    | none => simp only [hg, Option.none_bind] at hr; cases hr
    | some g =>
      cases hn : dictGet d "liquidityNet" with
      | none => simp only [hg, hn, Option.some_bind, Option.none_bind] at hr; cases hr
      | some n =>
        simp only [hg, hn, Option.some_bind] at hr
        cases hsub : compute_surrounding_ticks ticks
            { liquidity_active := L, tick_idx := active_tick_of ct ts,
              liquidity_net := n, liquidity_gross := g } ts "ASC" with
        | none => rw [hsub] at hr; cases hr
        | some la =>
          rw [hsub] at hr
          simp only [Option.some_bind] at hr
          cases hprev : compute_surrounding_ticks ticks
              { liquidity_active := L, tick_idx := active_tick_of ct ts,
                liquidity_net := n, liquidity_gross := g } ts "DSC" with
          | none => rw [hprev] at hr; cases hr
          | some lb =>
            rw [hprev] at hr
            simp only [Option.some_bind, Option.some.injEq] at hr
            subst hr
            obtain ⟨dsc, asc, hlb, hla, hchD, hchA⟩ :=
              liquidity_walks_assemble ticks ts hts _ la lb hsub hprev
            exact ⟨_, dsc, asc, by rw [← hlb, ← hla], rfl,
              by rw [← hlb]; exact hchD, by rw [← hla]; exact hchA⟩
  | none =>
    rw [hA] at hr
    simp only [Option.some_bind] at hr
    cases hsub : compute_surrounding_ticks ticks
        { liquidity_active := L, tick_idx := active_tick_of ct ts,
          liquidity_net := 0, liquidity_gross := 0 } ts "ASC" with
    | none => rw [hsub] at hr; cases hr
    | some la =>
      rw [hsub] at hr
      simp only [Option.some_bind] at hr
      cases hprev : compute_surrounding_ticks ticks
          { liquidity_active := L, tick_idx := active_tick_of ct ts,
            liquidity_net := 0, liquidity_gross := 0 } ts "DSC" with
      | none => rw [hprev] at hr; cases hr
      | some lb =>
        rw [hprev] at hr
        simp only [Option.some_bind, Option.some.injEq] at hr
        subst hr
        obtain ⟨dsc, asc, hlb, hla, hchD, hchA⟩ :=
          liquidity_walks_assemble ticks ts hts _ la lb hsub hprev
        exact ⟨_, dsc, asc, by rw [← hlb, ← hla], rfl,
          by rw [← hlb]; exact hchD, by rw [← hla]; exact hchA⟩

/-- The dictionaries built by the Pool State Fetcher have no lowercase
`liquidityGross`/`liquidityNet` keys (they use `LiquidityGross` /
`LiquidityNet`, src/pool_state.py:151-152). -/
theorem fetched_tick_dict_no_lowercase (raw : TickRaw) :
    dictGet (fetched_tick_dict raw) "liquidityGross" = none ∧
      dictGet (fetched_tick_dict raw) "liquidityNet" = none := ⟨rfl, rfl⟩

/-- Processing an initialized tick whose dictionary lacks the lowercase
`liquidityGross` key raises a `KeyError` (src/plot_liquidity.py:109). -/
theorem stepTick_none_of_fetched (ticks : Int → Option (List (String × Int)))
    (direction : String) (prev : PTick) (lastInit : Option (List (String × Int)))
    (next_idx : Int) (d : List (String × Int))
    (hd : ticks next_idx = some d) (hg : dictGet d "liquidityGross" = none) :
    stepTick ticks direction prev lastInit next_idx = none := by
  simp [stepTick, hd, hg]

/-- If any tick the ascending walk will reach (within fuel and the tick
bounds) is present in a mapping whose dictionaries lack the lowercase
`liquidityGross` key, the walk raises. -/
theorem surroundingLoop_asc_none (ticks : Int → Option (List (String × Int)))
    (ts : Int) (hts : 0 < ts)
    (hshape : ∀ i d2, ticks i = some d2 → dictGet d2 "liquidityGross" = none) :
    ∀ (fuel k : Nat) (cur : Int) (prev : PTick) (li : Option (List (String × Int))),
      1 ≤ k → k ≤ fuel → MIN_TICK ≤ cur → cur + (k : Int) * ts ≤ MAX_TICK →
      (ticks (cur + (k : Int) * ts)).isSome →
      surroundingLoop ticks ts "ASC" fuel cur prev li = none := by
  intro fuel
  induction fuel with
  | zero => intro k cur prev li hk1 hkf _ _ _; omega
  | succ fuel ih =>
    intro k cur prev li hk1 hkf hmin hmax hpres
    have hkt : ts ≤ (k : Int) * ts := by
      have h1 : (1 : Int) ≤ (k : Int) := by exact_mod_cast hk1
      nlinarith
    have hnb : ¬(cur + ts < MIN_TICK ∨ MAX_TICK < cur + ts) := by
      push_neg
      exact ⟨by linarith, by linarith⟩
    simp only [surroundingLoop, String.reduceEq, reduceIte, Option.bind_eq_bind,
      Option.pure_def, Option.some_bind, if_neg hnb]
    cases hnext : ticks (cur + ts) with
    | some d =>
      rw [stepTick_none_of_fetched ticks "ASC" prev li (cur + ts) d hnext
        (hshape _ _ hnext)]
      rfl
    | none =>
      have hk2 : 2 ≤ k := by
        by_contra hlt
        push_neg at hlt
        have hk1e : k = 1 := by omega
        subst hk1e
        rw [show ((1 : Nat) : Int) * ts = ts by push_cast; ring] at hpres
        rw [hnext] at hpres
        cases hpres
      cases hst : stepTick ticks "ASC" prev li (cur + ts) with
      | none => rfl
      | some pr =>
        obtain ⟨c, li2⟩ := pr
        have hrec : surroundingLoop ticks ts "ASC" fuel (cur + ts) c li2 = none := by
          apply ih (k - 1) (cur + ts) c li2
          · omega
          · omega
          · omega
          · have : ((k - 1 : Nat) : Int) = (k : Int) - 1 := by
              have : (1 : Nat) ≤ k := hk1
              push_cast [Nat.cast_sub this]
              ring
            rw [this]
            have : cur + ts + ((k : Int) - 1) * ts = cur + (k : Int) * ts := by ring
            rw [this]
            exact hmax
          · have h2 : ((k - 1 : Nat) : Int) = (k : Int) - 1 := by
              push_cast [Nat.cast_sub hk1]
              ring
            rw [h2]
            have h3 : cur + ts + ((k : Int) - 1) * ts = cur + (k : Int) * ts := by ring
            rw [h3]
            exact hpres
        simp [hrec]

/-- If any tick the descending walk will reach (within fuel and the tick
bounds) is present in a mapping whose dictionaries lack the lowercase
`liquidityGross` key, the walk raises. -/
theorem surroundingLoop_dsc_none (ticks : Int → Option (List (String × Int)))
    (ts : Int) (hts : 0 < ts)
    (hshape : ∀ i d2, ticks i = some d2 → dictGet d2 "liquidityGross" = none) :
    ∀ (fuel k : Nat) (cur : Int) (prev : PTick) (li : Option (List (String × Int))),
      1 ≤ k → k ≤ fuel → cur ≤ MAX_TICK → MIN_TICK ≤ cur - (k : Int) * ts →
      (ticks (cur - (k : Int) * ts)).isSome →
      surroundingLoop ticks ts "DSC" fuel cur prev li = none := by
  intro fuel
  induction fuel with
  | zero => intro k cur prev li hk1 hkf _ _ _; omega
  | succ fuel ih =>
    intro k cur prev li hk1 hkf hmax hmin hpres
    have hkt : ts ≤ (k : Int) * ts := by
      have h1 : (1 : Int) ≤ (k : Int) := by exact_mod_cast hk1
      nlinarith
    have hnb : ¬(cur - ts < MIN_TICK ∨ MAX_TICK < cur - ts) := by
      push_neg
      exact ⟨by linarith, by linarith⟩
    simp only [surroundingLoop, String.reduceEq, reduceIte, Option.bind_eq_bind,
      Option.pure_def, Option.some_bind, if_neg hnb]
    cases hnext : ticks (cur - ts) with
    | some d =>
      rw [stepTick_none_of_fetched ticks "DSC" prev li (cur - ts) d hnext
        (hshape _ _ hnext)]
      rfl
    | none =>
      have hk2 : 2 ≤ k := by
        by_contra hlt
        push_neg at hlt
        have hk1e : k = 1 := by omega
        subst hk1e
        rw [show ((1 : Nat) : Int) * ts = ts by push_cast; ring] at hpres
        rw [hnext] at hpres
        cases hpres
      cases hst : stepTick ticks "DSC" prev li (cur - ts) with
      | none => rfl
      | some pr =>
        obtain ⟨c, li2⟩ := pr
        have hrec : surroundingLoop ticks ts "DSC" fuel (cur - ts) c li2 = none := by
          apply ih (k - 1) (cur - ts) c li2
          · omega
          · omega
          · linarith
          · have h2 : ((k - 1 : Nat) : Int) = (k : Int) - 1 := by
              push_cast [Nat.cast_sub hk1]
              ring
            rw [h2]
            have h3 : cur - ts - ((k : Int) - 1) * ts = cur - (k : Int) * ts := by ring
            rw [h3]
            exact hmin
          · have h2 : ((k - 1 : Nat) : Int) = (k : Int) - 1 := by
              push_cast [Nat.cast_sub hk1]
              ring
            rw [h2]
            have h3 : cur - ts - ((k : Int) - 1) * ts = cur - (k : Int) * ts := by ring
            rw [h3]
            exact hpres
        simp [hrec]

/-- The clamped active tick always lies in `[MIN_TICK, MAX_TICK]`. -/
theorem active_tick_of_mem_range (ct ts : Int) :
    MIN_TICK ≤ active_tick_of ct ts ∧ active_tick_of ct ts ≤ MAX_TICK := by
  simp only [active_tick_of]
  split_ifs with h1 h2
  · exact ⟨le_refl _, by decide⟩
  · exact ⟨by decide, le_refl _⟩
  · exact ⟨le_of_not_lt h1, le_of_not_lt h2⟩

/-- Every dictionary looked up in a fetched pool-state tick mapping was
built by `fetched_tick_dict`. -/
theorem pyDictLookup_shape (chain : Int → TickRaw) (st : Nat) (a0 ts0 : Int) (i : Int)
    (d : List (String × Int))
    (h : pyDictLookup (get_pool_state_ticks chain st a0 ts0) i = some d) :
    ∃ raw, d = fetched_tick_dict raw := by
  unfold pyDictLookup at h
  have hmem : d ∈ ((get_pool_state_ticks chain st a0 ts0).filter
      (fun p => p.1 = i)).map (fun p => p.2) :=
    List.mem_of_mem_getLast? (by rw [h]; exact rfl)
  obtain ⟨p, hp, rfl⟩ := List.mem_map.mp hmem
  have hpl : p ∈ get_pool_state_ticks chain st a0 ts0 := (List.mem_filter.mp hp).1
  obtain ⟨idx, _, hpe⟩ := List.mem_map.mp hpl
  exact ⟨chain idx, by rw [← hpe]⟩

/-- An exception in the walk propagates out of
`compute_surrounding_ticks`. -/
theorem compute_surrounding_ticks_none (ticks : Int → Option (List (String × Int)))
    (seed : PTick) (ts : Int) (direction : String)
    (h : surroundingLoop ticks ts direction 300 seed.tick_idx seed none = none) :
    compute_surrounding_ticks ticks seed ts direction = none := by
  simp [compute_surrounding_ticks, h]

/-- C10: CONFIRMED.  The Pool State Fetcher stores tick liquidity under the
capitalized keys `LiquidityGross`/`LiquidityNet` (src/pool_state.py:151-152)
while the liquidity reconstruction reads the lowercase keys
`liquidityGross`/`liquidityNet` (src/plot_liquidity.py:68-69 and 109-110):
for every pool-state report whose `ticks` mapping contains the active tick
or any tick visited by the walk (`activeTick ± k·tickSpacing`, `k ≤ 300`,
within the tick bounds), `get_liquidity_per_tick` raises a missing-key
error (`none`) instead of copying that tick's liquidity. -/
theorem pool_state_keys_break_reconstruction
    (chain : Int → TickRaw) (st : Nat) (active0 ts0 : Int)
    (ticks : Int → Option (List (String × Int)))
    (hticks : ∀ i, ticks i = pyDictLookup (get_pool_state_ticks chain st active0 ts0) i)
    (ct ts L : Int) (hts : 0 < ts)
    (hpresent : (ticks (active_tick_of ct ts)).isSome ∨
      ∃ k : Nat, 1 ≤ k ∧ k ≤ 300 ∧
        ((active_tick_of ct ts + (k : Int) * ts ≤ MAX_TICK ∧
            (ticks (active_tick_of ct ts + (k : Int) * ts)).isSome) ∨
          (MIN_TICK ≤ active_tick_of ct ts - (k : Int) * ts ∧
            (ticks (active_tick_of ct ts - (k : Int) * ts)).isSome))) :
    get_liquidity_per_tick ticks ct ts L = none := by
  have hshape : ∀ i d2, ticks i = some d2 → dictGet d2 "liquidityGross" = none := by
    intro i d2 hi
    rw [hticks i] at hi
    obtain ⟨raw, rfl⟩ := pyDictLookup_shape chain st active0 ts0 i d2 hi
    exact (fetched_tick_dict_no_lowercase raw).1
  obtain ⟨hminA, hmaxA⟩ := active_tick_of_mem_range ct ts
  simp only [get_liquidity_per_tick, Option.bind_eq_bind, Option.pure_def]
  cases hA : ticks (active_tick_of ct ts) with
  | some d =>
    simp [hshape _ _ hA]
  | none =>
    simp only [Option.some_bind]
    rcases hpresent with hactive | ⟨k, hk1, hk300, hside⟩
    · rw [hA] at hactive; cases hactive
    · rcases hside with ⟨hble, hpres⟩ | ⟨hbge, hpres⟩
      · have hloop : surroundingLoop ticks ts "ASC" 300
            (active_tick_of ct ts)
            { liquidity_active := L, tick_idx := active_tick_of ct ts,
              liquidity_net := 0, liquidity_gross := 0 } none = none :=
          surroundingLoop_asc_none ticks ts hts hshape 300 k
            (active_tick_of ct ts) _ none hk1 hk300 hminA hble hpres
        rw [compute_surrounding_ticks_none ticks
          { liquidity_active := L, tick_idx := active_tick_of ct ts,
            liquidity_net := 0, liquidity_gross := 0 } ts "ASC" hloop]
        rfl
      · cases hsub : compute_surrounding_ticks ticks
            { liquidity_active := L, tick_idx := active_tick_of ct ts,
              liquidity_net := 0, liquidity_gross := 0 } ts "ASC" with
        | none => rfl
        | some la =>
          have hloop : surroundingLoop ticks ts "DSC" 300
              (active_tick_of ct ts)
              { liquidity_active := L, tick_idx := active_tick_of ct ts,
                liquidity_net := 0, liquidity_gross := 0 } none = none :=
            surroundingLoop_dsc_none ticks ts hts hshape 300 k
              (active_tick_of ct ts) _ none hk1 hk300 hmaxA hbge hpres
          have hdsc := compute_surrounding_ticks_none ticks
            { liquidity_active := L, tick_idx := active_tick_of ct ts,
              liquidity_net := 0, liquidity_gross := 0 } ts "DSC" hloop
          simp [hdsc]

set_option maxRecDepth 8192 in
/-- C7 witness: the amended reconstruction-order theorem instantiated on the
empty tick mapping with current tick 0, spacing 300000 and liquidity 5. -/
theorem liquidity_concat_amended_witness :
    ∃ seed dsc asc,
      liqResultW.ticks_processed = (seed :: dsc) ++ (seed :: asc) ∧
      seed.tick_idx = liqResultW.active_tick_idx ∧
      List.Chain' (fun a b => b.tick_idx < a.tick_idx) (seed :: dsc) ∧
      List.Chain' (fun a b => a.tick_idx < b.tick_idx) (seed :: asc) :=
  liquidity_concat_amended (fun _ => none) 0 300000 5 (by decide) liqResultW (by decide)

set_option maxRecDepth 100000 in
/-- C10 witness: a report fetched from a concrete chain (every tick tuple
equal) makes the reconstruction raise at the first visited fetched tick. -/
theorem pool_state_keys_break_reconstruction_witness :
    get_liquidity_per_tick ticksW 0 300000 7 = none :=
  pool_state_keys_break_reconstruction chainW 5 0 300000 ticksW (fun i => rfl)
    0 300000 7 (by decide)
    (Or.inr ⟨1, by decide, by decide, Or.inl ⟨by decide, by decide⟩⟩)
